import Mathlib

/-!
Shallow embedding of `src/src/python/dxpy/bindings/dxjob.py` (the `DXJob`
handler of the dx-toolkit repository), together with theorems settling the
frozen claims about it.

The embedding follows the Python source:
* Python values passed around opaquely (function inputs, executor results,
  passthrough keyword options) are modelled by the inductive `PyVal`.
* Python exceptions are modelled by the inductive `PyErr`; the source raises
  `DXJobFailureError(msg)` in `wait_on_done`, modelled by the constructor
  `PyErr.dxJobFailure` carrying the message string.
* `DXJob.wait_on_done` is a polling loop; it is modelled by the fuel-indexed
  function `waitLoop` over a stream `states : Nat → String` of the `state`
  fields returned by successive `describe` calls.  The returned triple
  records the outcome, the index of the iteration at which the loop stopped
  (equivalently the number of sleeps performed before stopping; the number
  of describe calls is that index plus one) and the final value of the
  Python-local variable `elapsed`.
* The process state touched by `DXJob.new` / `set_id` / `get_id` (handle
  attributes `_dxid`, `_test_harness_result`, and the module-level dict
  `_test_harness_jobs`) is modelled by the structure `World`.
-/

inductive PyVal where
  | vStr : String → PyVal
  | vNat : Nat → PyVal
  | vPair : PyVal → PyVal → PyVal
deriving DecidableEq, Repr, Inhabited

inductive PyErr where
  | dxJobFailure : String → PyErr
  | apiError : String → PyErr
  | runError : String → PyErr
deriving DecidableEq, Repr, Inhabited

deriving instance DecidableEq for Except

/-- Message of the exception raised when the job state is `failed`. -/
def jobFailedMsg : String := "Job has failed."

/-- Message of the exception raised when the job state is `terminated`. -/
def jobTerminatedMsg : String := "Job was terminated."

/-- Message of the exception raised when the wait timeout is reached. -/
def jobTimeoutMsg : String := "Reached timeout while waiting for the job to finish"

/-- Boolean test for the three states terminal for `wait_on_done`. -/
def isTerminalState (s : String) : Bool :=
  s == "done" || s == "failed" || s == "terminated"

/-- One fuel-indexed run of the `while True` loop of `DXJob.wait_on_done`.
`states i` is the `state` field returned by the `(i+1)`-st describe call,
`i` the iteration index, `elapsed` the loop variable of the source.  The
source checks, in order: `done` (break), `failed` (raise), `terminated`
(raise), `elapsed >= timeout or elapsed < 0` (raise), then sleeps
`interval` seconds and adds `interval` to `elapsed`.  `none` means the fuel
ran out before the loop stopped. -/
def waitLoop (states : Nat → String) (interval timeout : Int) :
    Nat → Nat → Int → Option (Except PyErr Unit × Nat × Int)
  | 0, _, _ => none
  | fuel + 1, i, elapsed =>
    if states i = "done" then
      some (.ok (), i, elapsed)
    else if states i = "failed" then
      some (.error (.dxJobFailure jobFailedMsg), i, elapsed)
    else if states i = "terminated" then
      some (.error (.dxJobFailure jobTerminatedMsg), i, elapsed)
    else if elapsed ≥ timeout ∨ elapsed < 0 then
      some (.error (.dxJobFailure jobTimeoutMsg), i, elapsed)
    else
      waitLoop states interval timeout fuel (i + 1) (elapsed + interval)

/-- Entry point of `DXJob.wait_on_done`: the loop starts with `elapsed = 0`
at iteration index `0`. -/
def wait_on_done (states : Nat → String) (interval timeout : Int) (fuel : Nat) :
    Option (Except PyErr Unit × Nat × Int) :=
  waitLoop states interval timeout fuel 0 0

/-- Numeric value of a decimal digit character, used to read back the
decimal string produced by `Nat.repr`. -/
def charVal (c : Char) : Nat := c.toNat - Char.toNat '0'

/-- Decimal digit characters of `n`, most significant first; a reference
reformulation of core's fuel-based `Nat.toDigitsCore` at base 10. -/
def decDigits (n : Nat) : List Char :=
  if n < 10 then [Nat.digitChar n]
  else decDigits (n / 10) ++ [Nat.digitChar (n % 10)]
decreasing_by exact Nat.div_lt_self (by omega) (by omega)

/-- Numeric value of a list of decimal digit characters. -/
def listVal (l : List Char) : Nat := l.foldl (fun a c => 10 * a + charVal c) 0

/-- Model of a `DXJob` handler's instance attributes: `_dxid` (identity;
`none` models the attribute being absent or `None`) and
`_test_harness_result` (the stored local-mode result). -/
structure DXJobHandle where
  dxid : Option String
  test_harness_result : Option PyVal
deriving DecidableEq, Repr, Inhabited

/-- Model of the request payload `req_input` built by `DXJob.new` in remote
mode: a dict with exactly the keys `input` and `function`. -/
structure JobNewInput where
  input : PyVal
  function : String
deriving DecidableEq, Repr

/-- Model of the response of the remote `jobNew` call; `DXJob.new` reads
its `id` field. -/
structure CreateResp where
  id : String
deriving DecidableEq, Repr

/-- Model of the process state touched by the module: the handle objects
(indexed by an allocation counter so that the registry can alias them) and
the module-level dict `_test_harness_jobs` mapping synthetic identities to
handle indices.  Python dicts are insertion-ordered, hence the list. -/
structure World where
  handles : Nat → DXJobHandle
  handleCount : Nat
  test_harness_jobs : List (String × Nat)

/-- Initial state: no handles, empty `_test_harness_jobs`. -/
def World.empty : World := ⟨fun _ => ⟨none, none⟩, 0, []⟩

/-- Pointwise update of the handle store. -/
def updFn (f : Nat → DXJobHandle) (i : Nat) (v : DXJobHandle) : Nat → DXJobHandle :=
  fun j => if j = i then v else f j

/-- Model of `DXJob.__init__` with `dxid=None`: allocates a fresh handle
whose `_test_harness_result` is `None` and whose `_dxid` is unset. -/
def newHandle (w : World) : Nat × World :=
  (w.handleCount,
   { w with handles := updFn w.handles w.handleCount ⟨none, none⟩,
            handleCount := w.handleCount + 1 })

/-- Model of `DXJob.set_id`: `self._dxid = dxid`, nothing else. -/
def set_id (w : World) (h : Nat) (dxid : String) : World :=
  { w with handles := updFn w.handles h { (w.handles h) with dxid := some dxid } }

/-- Model of `DXJob.get_id`: `return self._dxid`. -/
def get_id (w : World) (h : Nat) : Option String :=
  (w.handles h).dxid

/-- Python dict assignment `m[k] = v` on an insertion-ordered association
list: overwrite in place when the key exists, append otherwise. -/
def dictInsert (m : List (String × Nat)) (k : String) (v : Nat) : List (String × Nat) :=
  if m.any (fun p => p.1 == k) then m.map (fun p => if p.1 == k then (k, v) else p)
  else m ++ [(k, v)]

/-- Record of the external calls made during one `DXJob.new` call: the
`dxpy.api.jobNew` payloads (with the passthrough options) and the
`dxpy.run` arguments. -/
structure CallLog where
  jobNewCalls : List (JobNewInput × PyVal)
  runCalls : List (String × PyVal)
deriving DecidableEq, Repr

/-- Model of `DXJob.new`.  `env_has_dx_job_id` is the environment probe
(`'DX_JOB_ID' in os.environ`); `api_jobNew` and `dxpy_run` are the external
collaborators, modelled as functions that either return a value or raise.
Remote branch: build `{input: fn_input, function: fn_name}`, call `jobNew`
with it and the options, bind the identity to the response's `id`.
Detached branch: call `dxpy.run` first, then bind the identity to
`"job-" + str(len(_test_harness_jobs) + 1)`, register the handle in
`_test_harness_jobs` under `self.get_id()`, and store the result in
`_test_harness_result`.  The first component of the result is the raised
exception (if any) together with the state after the call; the second
records the external calls made. -/
def DXJob.new (env_has_dx_job_id : Bool)
    (api_jobNew : JobNewInput → PyVal → Except PyErr CreateResp)
    (dxpy_run : String → PyVal → Except PyErr PyVal)
    (fn_input : PyVal) (fn_name : String) (opts : PyVal)
    (h : Nat) (w : World) : (Option PyErr × World) × CallLog :=
  if env_has_dx_job_id then
    match api_jobNew ⟨fn_input, fn_name⟩ opts with
    | .error e => ((some e, w), ⟨[(⟨fn_input, fn_name⟩, opts)], []⟩)
    | .ok resp => ((none, set_id w h resp.id), ⟨[(⟨fn_input, fn_name⟩, opts)], []⟩)
  else
    match dxpy_run fn_name fn_input with
    | .error e => ((some e, w), ⟨[], [(fn_name, fn_input)]⟩)
    | .ok result =>
      let newId := "job-" ++ Nat.repr (w.test_harness_jobs.length + 1)
      let w1 := set_id w h newId
      let w2 := { w1 with test_harness_jobs := dictInsert w1.test_harness_jobs newId h }
      let hh := w2.handles h
      let w3 := { w2 with handles := updFn w2.handles h { hh with test_harness_result := some result } }
      ((none, w3), ⟨[], [(fn_name, fn_input)]⟩)

/-- Model of the request sent by `DXJob.describe`: the bound identity and
the `{io: includeIO}` qualifier.  The body is a single external call; it
assigns nothing, so the world is returned unchanged. -/
structure DescribeReq where
  jobId : Option String
  io : Bool
deriving DecidableEq, Repr

/-- Model of `DXJob.describe`: `return dxpy.api.jobDescribe(self._dxid,
{"io": io}, **kwargs)` — no local state change. -/
def DXJob.describe (w : World) (h : Nat) (io : Bool) : World × DescribeReq :=
  (w, ⟨get_id w h, io⟩)

/-- Model of `DXJob.terminate`: `dxpy.api.jobTerminate(self._dxid,
**kwargs)` — no local state change; yields the identity sent. -/
def DXJob.terminate (w : World) (h : Nat) : World × Option String :=
  (w, get_id w h)

/-- `N` sequential detached-mode creations, each on a freshly allocated
handle, with arbitrary function names `fns`, inputs `ins`, and successful
executor results `outs`. -/
def createN (fns : Nat → String) (ins outs : Nat → PyVal) : Nat → World
  | 0 => World.empty
  | n + 1 =>
    let w := createN fns ins outs n
    let hw := newHandle w
    ((DXJob.new false (fun _ _ => .error (.apiError "offline"))
        (fun _ _ => .ok (outs n)) (ins n) (fns n) (.vNat 0) hw.1 hw.2).1).2

/-- Scenario world for rebinding: one fresh handle. -/
def rebindW1 : World := (newHandle World.empty).2

/-- Scenario world: a detached-mode creation (function `add`, input
`{a:1,b:2}` abstracted to a pair, local result `3`) on handle `0`. -/
def rebindW2 : World :=
  ((DXJob.new false (fun _ _ => .error (.apiError "offline"))
      (fun _ _ => .ok (.vNat 3)) (.vPair (.vNat 1) (.vNat 2)) "add" (.vNat 0)
      0 rebindW1).1).2

/-- Scenario world: the detached handle rebound to a fresh identity. -/
def rebindW3 : World := set_id rebindW2 0 "job-xyz"

/-- The claim C1 theorem: with `timeout = 0` and the first describe call
reporting `done`, `wait_on_done` succeeds (it does not raise the timeout
error), stopping at iteration 0 with `elapsed = 0`. -/
theorem wait_done_beats_timeout (states : Nat → String) (interval : Int)
    (fuel : Nat) (h : states 0 = "done") :
    wait_on_done states interval 0 (fuel + 1) = some (.ok (), 0, 0) := by
  simp [wait_on_done, waitLoop, h]

/-- Witness for C1 at a concrete stream: every describe call says `done`. -/
theorem wait_done_beats_timeout_witness :
    wait_on_done (fun _ => "done") 2 0 1 = some (.ok (), 0, 0) :=
  wait_done_beats_timeout (fun _ => "done") 2 0 rfl

/-- Running `k` non-stopping iterations of the wait loop: if for the next
`k` iterations the state is not terminal, the timeout has not been reached
and `elapsed` is not negative, the loop just sleeps `k` times, advancing the
iteration index by `k` and `elapsed` by `k * interval`. -/
theorem waitLoop_skip (states : Nat → String) (interval timeout : Int) :
    ∀ (k fuel i : Nat) (e : Int),
      (∀ j, j < k → isTerminalState (states (i + j)) = false ∧
        e + j * interval < timeout ∧ 0 ≤ e + j * interval) →
      waitLoop states interval timeout (k + fuel) i e =
        waitLoop states interval timeout fuel (i + k) (e + k * interval) := by
  intro k
  induction k with
  | zero => intro fuel i e _; simp
  | succ k ih =>
    intro fuel i e h
    have h0 := h 0 (Nat.succ_pos k)
    simp only [isTerminalState, Bool.or_eq_false_iff, beq_eq_false_iff_ne,
      Nat.add_zero, Nat.cast_zero, zero_mul, add_zero] at h0
    obtain ⟨⟨⟨hd, hf⟩, ht⟩, hlt, hnn⟩ := h0
    have hstep : waitLoop states interval timeout (k + fuel + 1) i e =
        waitLoop states interval timeout (k + fuel) (i + 1) (e + interval) := by
      rw [waitLoop]
      simp only [hd, hf, ht, if_false]
      rw [if_neg]
      push_neg
      exact ⟨hlt, hnn⟩
    have hshift : ∀ j, j < k → isTerminalState (states (i + 1 + j)) = false ∧
        (e + interval) + j * interval < timeout ∧ 0 ≤ (e + interval) + j * interval := by
      intro j hj
      have := h (j + 1) (Nat.succ_lt_succ hj)
      have harith : e + (↑(j + 1) : Int) * interval = (e + interval) + ↑j * interval := by
        push_cast; ring
      have hidx : i + (j + 1) = i + 1 + j := by omega
      rw [hidx, harith] at this
      exact this
    calc waitLoop states interval timeout (k + 1 + fuel) i e
        = waitLoop states interval timeout (k + fuel + 1) i e := by
          congr 1; omega
      _ = waitLoop states interval timeout (k + fuel) (i + 1) (e + interval) := hstep
      _ = waitLoop states interval timeout fuel (i + 1 + k) ((e + interval) + k * interval) :=
          ih fuel (i + 1) (e + interval) hshift
      _ = waitLoop states interval timeout fuel (i + (k + 1)) (e + ↑(k + 1) * interval) := by
          congr 1
          · omega
          · push_cast; ring

/-- Reaching iteration `k` of the wait loop from the start: if the first `k`
describe calls report non-terminal states before the timeout budget is
spent, the loop arrives at iteration `k` with `elapsed = k * interval` and
fuel to spare. -/
theorem waitLoop_reaches (states : Nat → String) (interval timeout : Int)
    (k f : Nat) (hint : 0 ≤ interval)
    (hpre : ∀ j, j < k → isTerminalState (states j) = false ∧
      (j : Int) * interval < timeout) :
    wait_on_done states interval timeout (k + (f + 1)) =
      waitLoop states interval timeout (f + 1) k ((k : Int) * interval) := by
  have h := waitLoop_skip states interval timeout k (f + 1) 0 0 ?_
  · simpa using h
  · intro j hj
    refine ⟨by simpa using (hpre j hj).1, by simpa using (hpre j hj).2, ?_⟩
    have : (0 : Int) ≤ (j : Int) * interval :=
      mul_nonneg (Int.natCast_nonneg j) hint
    simpa using this

/-- The claim C2 theorem: whenever the describe stream first reports
`failed` (resp. `terminated`) at iteration `k`, having reported only
non-terminal states within the timeout budget before, `wait_on_done` raises
the corresponding exception at iteration `k` itself — after exactly the `k`
sleeps of the previous iterations, with no further sleep, and regardless of
whether `elapsed` has already reached the timeout at iteration `k` (the
terminal-state checks have priority over the timeout check).  The third
conjunct states that the three terminal failure values are pairwise
distinct. -/
theorem wait_failed_terminated_outcomes :
    (∀ (states : Nat → String) (interval timeout : Int) (k f : Nat),
      0 ≤ interval →
      (∀ j, j < k → isTerminalState (states j) = false ∧
        (j : Int) * interval < timeout) →
      states k = "failed" →
      wait_on_done states interval timeout (k + (f + 1)) =
        some (.error (.dxJobFailure jobFailedMsg), k, (k : Int) * interval)) ∧
    (∀ (states : Nat → String) (interval timeout : Int) (k f : Nat),
      0 ≤ interval →
      (∀ j, j < k → isTerminalState (states j) = false ∧
        (j : Int) * interval < timeout) →
      states k = "terminated" →
      wait_on_done states interval timeout (k + (f + 1)) =
        some (.error (.dxJobFailure jobTerminatedMsg), k, (k : Int) * interval)) ∧
    ((PyErr.dxJobFailure jobFailedMsg ≠ PyErr.dxJobFailure jobTerminatedMsg) ∧
     (PyErr.dxJobFailure jobFailedMsg ≠ PyErr.dxJobFailure jobTimeoutMsg) ∧
     (PyErr.dxJobFailure jobTerminatedMsg ≠ PyErr.dxJobFailure jobTimeoutMsg)) := by
  refine ⟨?_, ?_, by simp [jobFailedMsg, jobTerminatedMsg, jobTimeoutMsg]⟩
  · intro states interval timeout k f hint hpre hk
    rw [waitLoop_reaches states interval timeout k f hint hpre, waitLoop]
    simp [hk]
  · intro states interval timeout k f hint hpre hk
    rw [waitLoop_reaches states interval timeout k f hint hpre, waitLoop]
    simp [hk]

/-- Witness for C2: a stream that is `running` once then `failed`, and one
that is `running` once then `terminated`, with interval 2 and timeout 5. -/
theorem wait_failed_terminated_outcomes_witness :
    wait_on_done (fun i => if i = 0 then "running" else "failed") 2 5 2 =
      some (.error (.dxJobFailure jobFailedMsg), 1, 2) ∧
    wait_on_done (fun i => if i = 0 then "running" else "terminated") 2 5 2 =
      some (.error (.dxJobFailure jobTerminatedMsg), 1, 2) := by
  constructor
  · have h := wait_failed_terminated_outcomes.1
      (fun i => if i = 0 then "running" else "failed") 2 5 1 0
      (by decide) (by decide) (by decide)
    simpa using h
  · have h := wait_failed_terminated_outcomes.2.1
      (fun i => if i = 0 then "running" else "terminated") 2 5 1 0
      (by decide) (by decide) (by decide)
    simpa using h

/-- The claim C3 theorem: with interval 2 and timeout 5 and every describe
call reporting `running`, the wait fails with the timeout error at
iteration index 3 — that is, after 3 completed sleep/poll iterations (hence
a 4th describe call) — with `elapsed = 6 ≥ 5` at the raise. -/
theorem wait_timeout_after_three_polls (states : Nat → String) (f : Nat)
    (h : ∀ i, states i = "running") :
    wait_on_done states 2 5 (f + 4) = some (.error (.dxJobFailure jobTimeoutMsg), 3, 6) := by
  have hre : wait_on_done states 2 5 (3 + (f + 1)) =
      waitLoop states 2 5 (f + 1) 3 ((3 : Int) * 2) := by
    refine waitLoop_reaches states 2 5 3 f (by decide) ?_
    intro j hj
    refine ⟨by simp [h j, isTerminalState], ?_⟩
    have : (j : Int) ≤ 2 := by exact_mod_cast Nat.lt_succ_iff.mp hj
    nlinarith
  have hidx : f + 4 = 3 + (f + 1) := by omega
  rw [hidx, hre, waitLoop]
  norm_num [h 3]
  decide

/-- Witness for C3 at the constant `running` stream with minimal fuel. -/
theorem wait_timeout_after_three_polls_witness :
    wait_on_done (fun _ => "running") 2 5 4 =
      some (.error (.dxJobFailure jobTimeoutMsg), 3, 6) :=
  wait_timeout_after_three_polls (fun _ => "running") 0 (fun _ => rfl)

/-- Fuel sufficiency for the wait loop: with a positive interval, once the
remaining fuel covers the remaining timeout budget the loop stops (one way
or another) without exhausting the fuel, and the final iteration index is
bounded by the fuel spent. -/
theorem waitLoop_halts (states : Nat → String) (interval timeout : Int)
    (hint : 1 ≤ interval) :
    ∀ (f i : Nat) (e : Int), 0 ≤ e → timeout ≤ e + (f : Int) * interval →
      ∃ out j e', waitLoop states interval timeout (f + 1) i e = some (out, j, e') ∧
        j ≤ i + f := by
  intro f
  induction f with
  | zero =>
    intro i e he hbudget
    rw [waitLoop]
    split
    · exact ⟨_, _, _, rfl, by omega⟩
    split
    · exact ⟨_, _, _, rfl, by omega⟩
    split
    · exact ⟨_, _, _, rfl, by omega⟩
    split
    · exact ⟨_, _, _, rfl, by omega⟩
    · rename_i hcond
      exfalso
      apply hcond
      left
      simpa using hbudget
  | succ f ih =>
    intro i e he hbudget
    rw [waitLoop]
    split
    · exact ⟨_, _, _, rfl, by omega⟩
    split
    · exact ⟨_, _, _, rfl, by omega⟩
    split
    · exact ⟨_, _, _, rfl, by omega⟩
    split
    · exact ⟨_, _, _, rfl, by omega⟩
    · have he' : (0 : Int) ≤ e + interval := by linarith
      have hbudget' : timeout ≤ (e + interval) + (f : Int) * interval := by
        have : e + (↑(f + 1) : Int) * interval = (e + interval) + (f : Int) * interval := by
          push_cast; ring
        linarith [this ▸ hbudget]
      obtain ⟨out, j, e', heq, hj⟩ := ih (i + 1) (e + interval) he' hbudget'
      exact ⟨out, j, e', heq, by omega⟩

/-- With `interval = 0` and a positive timeout, a run of the wait loop over
exclusively non-terminal states never stops: `elapsed` stays at `0 < timeout`,
so every fuel bound is exhausted. -/
theorem waitLoop_zero_interval (states : Nat → String) (timeout : Int)
    (htp : 0 < timeout) (hnt : ∀ i, isTerminalState (states i) = false) :
    ∀ (fuel i : Nat), waitLoop states 0 timeout fuel i 0 = none := by
  intro fuel
  induction fuel with
  | zero => intro i; rfl
  | succ fuel ih =>
    intro i
    have h := hnt i
    simp only [isTerminalState, Bool.or_eq_false_iff, beq_eq_false_iff_ne] at h
    obtain ⟨⟨hd, hf⟩, ht⟩ := h
    rw [waitLoop]
    simp only [hd, hf, ht, if_false]
    rw [if_neg (by omega)]
    simpa using ih (i + 1)

/-- The claim C9 theorem.  First conjunct: for every interval `≥ 1` and
timeout `≥ 0`, `wait_on_done` stops within `timeout / interval + 2` describe
calls (fuel `⌊timeout / interval⌋ + 2` suffices, and the describe count
`j + 1` is bounded by it).  Second conjunct: with interval `0`, a positive
timeout and a describe stream that never reports a terminal state, `elapsed`
never advances and no amount of fuel makes the loop stop. -/
theorem wait_termination_and_zero_interval_divergence :
    (∀ (states : Nat → String) (interval timeout : Int),
      1 ≤ interval → 0 ≤ timeout →
      ∃ out j e',
        wait_on_done states interval timeout (timeout.toNat / interval.toNat + 2) =
          some (out, j, e') ∧ j + 1 ≤ timeout.toNat / interval.toNat + 2) ∧
    (∀ (states : Nat → String) (timeout : Int) (fuel : Nat),
      0 < timeout → (∀ i, isTerminalState (states i) = false) →
      wait_on_done states 0 timeout fuel = none) := by
  constructor
  · intro states interval timeout hint htime
    obtain ⟨vn, rfl⟩ : ∃ vn : Nat, interval = (vn : Int) :=
      ⟨interval.toNat, (Int.toNat_of_nonneg (by linarith)).symm⟩
    obtain ⟨tn, rfl⟩ : ∃ tn : Nat, timeout = (tn : Int) :=
      ⟨timeout.toNat, (Int.toNat_of_nonneg htime).symm⟩
    have hvn : 1 ≤ vn := by exact_mod_cast hint
    have hkey : (tn : Int) ≤ 0 + (↑(tn / vn + 1) : Int) * (vn : Int) := by
      have hmod := Nat.div_add_mod tn vn
      have hlt : tn % vn < vn := Nat.mod_lt tn (by omega)
      have : tn < (tn / vn + 1) * vn := by
        calc tn = vn * (tn / vn) + tn % vn := hmod.symm
          _ < vn * (tn / vn) + vn := by omega
          _ = (tn / vn + 1) * vn := by ring
      push_cast
      exact_mod_cast by linarith
    obtain ⟨out, j, e', heq, hj⟩ :=
      waitLoop_halts states (vn : Int) (tn : Int) hint (tn / vn + 1) 0 0 le_rfl hkey
    refine ⟨out, j, e', ?_, ?_⟩
    · have harg : (tn : Int).toNat / (vn : Int).toNat + 2 = (tn / vn + 1) + 1 := by
        simp [Int.toNat_natCast]
      rw [wait_on_done, harg]
      exact heq
    · have harg : (tn : Int).toNat / (vn : Int).toNat + 2 = (tn / vn + 1) + 1 := by
        simp [Int.toNat_natCast]
      omega
  · intro states timeout fuel htp hnt
    exact waitLoop_zero_interval states timeout htp hnt fuel 0

/-- Witness for C9: interval 2, timeout 5 halts within 4 describe calls on
the constant `running` stream; interval 0, timeout 5 runs out of any fuel. -/
theorem wait_termination_and_divergence_witness :
    (∃ out j e',
      wait_on_done (fun _ => "running") 2 5 4 = some (out, j, e') ∧ j + 1 ≤ 4) ∧
    wait_on_done (fun _ => "running") 0 5 7 = none := by
  constructor
  · have h := wait_termination_and_zero_interval_divergence.1
      (fun _ => "running") 2 5 (by norm_num) (by norm_num)
    have harg : (5 : Int).toNat / (2 : Int).toNat + 2 = 4 := by decide
    rw [harg] at h
    exact h
  · exact wait_termination_and_zero_interval_divergence.2
      (fun _ => "running") 5 7 (by norm_num) (fun _ => rfl)


/-- Reading back a decimal digit character yields the digit. -/
theorem charVal_digitChar : ∀ d, d < 10 → charVal (Nat.digitChar d) = d := by
  decide

/-- Core's fuel-based `Nat.toDigitsCore` at base 10 computes `decDigits`
when given enough fuel. -/
theorem toDigitsCore_eq_decDigits :
    ∀ (fuel n : Nat) (ds : List Char), n < fuel →
      Nat.toDigitsCore 10 fuel n ds = decDigits n ++ ds := by
  intro fuel
  induction fuel with
  | zero => intro n ds h; omega
  | succ fuel ih =>
    intro n ds h
    by_cases h10 : n < 10
    · have hdiv : n / 10 = 0 := by omega
      have hmod : n % 10 = n := by omega
      rw [decDigits]
      simp [Nat.toDigitsCore, hdiv, hmod, h10]
    · have hdiv : ¬ n / 10 = 0 := by omega
      have hlt : n / 10 < fuel := by omega
      rw [decDigits]
      simp only [Nat.toDigitsCore, hdiv, if_neg, if_false, ih (n / 10) _ hlt, h10]
      simp [List.append_assoc]

/-- Appending one digit multiplies the value by ten and adds the digit. -/
theorem listVal_append_singleton (l : List Char) (c : Char) :
    listVal (l ++ [c]) = 10 * listVal l + charVal c := by
  simp [listVal, List.foldl_append]

/-- Reading back the decimal digits of `n` yields `n`. -/
theorem listVal_decDigits : ∀ n, listVal (decDigits n) = n := by
  intro n
  induction n using Nat.strong_induction_on with
  | _ n ih =>
    rw [decDigits]
    by_cases h : n < 10
    · rw [if_pos h]
      simp [listVal, charVal_digitChar n h]
    · rw [if_neg h, listVal_append_singleton, ih (n / 10) (by omega),
        charVal_digitChar (n % 10) (by omega)]
      omega

/-- The decimal representation `Nat.repr` (Python's `str` on a
non-negative integer) is injective. -/
theorem nat_repr_injective : Function.Injective Nat.repr := by
  intro m n h
  have key : ∀ k : Nat, Nat.repr k = (decDigits k).asString := by
    intro k
    show (Nat.toDigitsCore 10 (k + 1) k []).asString = _
    rw [toDigitsCore_eq_decDigits (k + 1) k [] (Nat.lt_succ_self k), List.append_nil]
  rw [key m, key n] at h
  have hdata : decDigits m = decDigits n := congrArg String.data h
  calc m = listVal (decDigits m) := (listVal_decDigits m).symm
    _ = listVal (decDigits n) := by rw [hdata]
    _ = n := listVal_decDigits n

/-- The synthetic identity builder `"job-" + str(k)` is injective. -/
theorem jobId_injective : Function.Injective (fun k : Nat => "job-" ++ Nat.repr k) := by
  intro a b h
  simp only at h
  have hdata : ("job-" ++ Nat.repr a).data = ("job-" ++ Nat.repr b).data :=
    congrArg String.data h
  rw [String.data_append, String.data_append] at hdata
  have hsuffix := List.append_cancel_left hdata
  have hrepr : Nat.repr a = Nat.repr b := congrArg List.asString hsuffix
  exact nat_repr_injective hrepr

/-- Invariant of sequential detached-mode creation: after `n` creations the
registry holds exactly the pairs `("job-" + str(k+1), k)` for `k < n`, in
insertion order, and `n` handles have been allocated. -/
theorem createN_invariant (fns : Nat → String) (ins outs : Nat → PyVal) :
    ∀ n, (createN fns ins outs n).test_harness_jobs =
        (List.range n).map (fun k => ("job-" ++ Nat.repr (k + 1), k)) ∧
      (createN fns ins outs n).handleCount = n := by
  intro n
  induction n with
  | zero => exact ⟨rfl, rfl⟩
  | succ n ih =>
    obtain ⟨hjobs, hcount⟩ := ih
    have hlen : (createN fns ins outs n).test_harness_jobs.length = n := by
      rw [hjobs, List.length_map, List.length_range]
    have hstep : (createN fns ins outs (n + 1)).test_harness_jobs =
        dictInsert (createN fns ins outs n).test_harness_jobs
          ("job-" ++ Nat.repr ((createN fns ins outs n).test_harness_jobs.length + 1))
          (createN fns ins outs n).handleCount ∧
        (createN fns ins outs (n + 1)).handleCount =
          (createN fns ins outs n).handleCount + 1 := by
      constructor <;> simp [createN, DXJob.new, newHandle, set_id]
    have hany : ¬(((List.range n).map (fun k => ("job-" ++ Nat.repr (k + 1), k))).any
        (fun p => p.1 == "job-" ++ Nat.repr (n + 1)) = true) := by
      rw [List.any_eq_true]
      rintro ⟨p, hp, hpe⟩
      obtain ⟨k, hk, rfl⟩ := List.mem_map.mp hp
      have hkn : k < n := List.mem_range.mp hk
      have heq : "job-" ++ Nat.repr (k + 1) = "job-" ++ Nat.repr (n + 1) := by
        simpa using hpe
      have : k + 1 = n + 1 := jobId_injective heq
      omega
    constructor
    · rw [hstep.1, hlen, hcount, hjobs, dictInsert, if_neg hany, List.range_succ,
        List.map_append]
      simp
    · rw [hstep.2, hcount]

/-- The claim C4 theorem: `N` sequential detached-mode creations produce
the synthetic identities `job-1, ..., job-N`, exactly in this order, and
the registry keys are pairwise distinct (no gaps, no repeats). -/
theorem detached_ids_sequential (fns : Nat → String) (ins outs : Nat → PyVal) (N : Nat) :
    ((createN fns ins outs N).test_harness_jobs.map Prod.fst =
      (List.range N).map (fun k => "job-" ++ Nat.repr (k + 1))) ∧
    ((createN fns ins outs N).test_harness_jobs.map Prod.fst).Nodup := by
  have h := (createN_invariant fns ins outs N).1
  have hkeys : (createN fns ins outs N).test_harness_jobs.map Prod.fst =
      (List.range N).map (fun k => "job-" ++ Nat.repr (k + 1)) := by
    rw [h, List.map_map]
    rfl
  refine ⟨hkeys, ?_⟩
  rw [hkeys]
  refine (List.nodup_range N).map ?_
  intro a b hab
  have : a + 1 = b + 1 := jobId_injective hab
  omega

/-- The claim C5 theorem: in remote mode (environment marker present)
`new` makes exactly one `jobNew` call, whose payload has `input = fn_input`
and `function = fn_name` and which carries the passthrough options, makes
no `dxpy.run` call, binds the handle identity to the response's `id` field
on success, and propagates a gateway error unchanged with no state
change. -/
theorem remote_new_contract
    (api_jobNew : JobNewInput → PyVal → Except PyErr CreateResp)
    (dxpy_run : String → PyVal → Except PyErr PyVal)
    (fn_input : PyVal) (fn_name : String) (opts : PyVal) (h : Nat) (w : World) :
    ((DXJob.new true api_jobNew dxpy_run fn_input fn_name opts h w).2 =
      ⟨[(⟨fn_input, fn_name⟩, opts)], []⟩) ∧
    (∀ resp, api_jobNew ⟨fn_input, fn_name⟩ opts = .ok resp →
      (DXJob.new true api_jobNew dxpy_run fn_input fn_name opts h w).1 =
        (none, set_id w h resp.id) ∧
      get_id (set_id w h resp.id) h = some resp.id) ∧
    (∀ e, api_jobNew ⟨fn_input, fn_name⟩ opts = .error e →
      (DXJob.new true api_jobNew dxpy_run fn_input fn_name opts h w).1 = (some e, w)) := by
  refine ⟨?_, ?_, ?_⟩
  · cases hapi : api_jobNew ⟨fn_input, fn_name⟩ opts <;> simp [DXJob.new, hapi]
  · intro resp hresp
    constructor
    · simp [DXJob.new, hresp]
    · simp [get_id, set_id, updFn]
  · intro e he
    simp [DXJob.new, he]

/-- Witness for C5: a gateway returning `{id: "job-XYZ"}` and a gateway
raising, each on the empty world. -/
theorem remote_new_contract_witness :
    ((DXJob.new true (fun _ _ => .ok ⟨"job-XYZ"⟩) (fun _ _ => .ok (.vNat 0))
        (.vNat 1) "add" (.vNat 0) 0 World.empty).2 =
      ⟨[(⟨.vNat 1, "add"⟩, .vNat 0)], []⟩) ∧
    ((DXJob.new true (fun _ _ => .ok ⟨"job-XYZ"⟩) (fun _ _ => .ok (.vNat 0))
        (.vNat 1) "add" (.vNat 0) 0 World.empty).1 =
      (none, set_id World.empty 0 "job-XYZ") ∧
      get_id (set_id World.empty 0 "job-XYZ") 0 = some "job-XYZ") ∧
    ((DXJob.new true (fun _ _ => .error (.apiError "boom")) (fun _ _ => .ok (.vNat 0))
        (.vNat 1) "add" (.vNat 0) 0 World.empty).1 =
      (some (.apiError "boom"), World.empty)) :=
  ⟨(remote_new_contract (fun _ _ => .ok ⟨"job-XYZ"⟩) (fun _ _ => .ok (.vNat 0))
      (.vNat 1) "add" (.vNat 0) 0 World.empty).1,
   (remote_new_contract (fun _ _ => .ok ⟨"job-XYZ"⟩) (fun _ _ => .ok (.vNat 0))
      (.vNat 1) "add" (.vNat 0) 0 World.empty).2.1 ⟨"job-XYZ"⟩ rfl,
   (remote_new_contract (fun _ _ => .error (.apiError "boom")) (fun _ _ => .ok (.vNat 0))
      (.vNat 1) "add" (.vNat 0) 0 World.empty).2.2 (.apiError "boom") rfl⟩

/-- The claim C8 theorem: in detached mode, if the local executor raises,
`new` propagates the exception and performs no mutation at all — the
returned world is the input world itself (identity, stored local result
and registry all unchanged), and only the one `dxpy.run` call was made. -/
theorem detached_new_atomic_on_failure
    (api_jobNew : JobNewInput → PyVal → Except PyErr CreateResp)
    (dxpy_run : String → PyVal → Except PyErr PyVal)
    (fn_input : PyVal) (fn_name : String) (opts : PyVal) (h : Nat) (w : World)
    (e : PyErr) (hrun : dxpy_run fn_name fn_input = .error e) :
    DXJob.new false api_jobNew dxpy_run fn_input fn_name opts h w =
      ((some e, w), ⟨[], [(fn_name, fn_input)]⟩) := by
  simp [DXJob.new, hrun]

/-- Witness for C8: a failing executor on a one-handle world. -/
theorem detached_new_atomic_on_failure_witness :
    DXJob.new false (fun _ _ => .error (.apiError "offline"))
        (fun _ _ => .error (.runError "exec failed")) (.vNat 1) "add" (.vNat 0)
        0 rebindW1 =
      ((some (.runError "exec failed"), rebindW1), ⟨[], [("add", .vNat 1)]⟩) :=
  detached_new_atomic_on_failure (fun _ _ => .error (.apiError "offline"))
    (fun _ _ => .error (.runError "exec failed")) (.vNat 1) "add" (.vNat 0)
    0 rebindW1 (.runError "exec failed") rfl

/-- Counterexample to the claim C6 as stated: after a detached-mode
creation stored local result `3` on handle `0` under identity `job-1`,
rebinding via `set_id` to `job-xyz` does replace the identity, but the
stored local-mode result is still present on the handle (it is not reset
to `None`), contradicting "leaves no residual local-mode result". -/
theorem rebind_leaves_local_result_cex :
    get_id rebindW3 0 = some "job-xyz" ∧
    (rebindW3.handles 0).test_harness_result = some (.vNat 3) ∧
    ¬((rebindW3.handles 0).test_harness_result = none) := by
  refine ⟨?_, ?_, ?_⟩ <;> decide

/-- The claim C6 amended: `set_id` fully replaces the identity, but leaves
every handle's stored local result — and the registry — exactly as they
were; the prior local result is not discarded. -/
theorem set_id_replaces_id_keeps_result (w : World) (h h' : Nat) (dxid : String) :
    get_id (set_id w h dxid) h = some dxid ∧
    ((set_id w h dxid).handles h').test_harness_result =
      (w.handles h').test_harness_result ∧
    (set_id w h dxid).test_harness_jobs = w.test_harness_jobs := by
  refine ⟨?_, ?_, rfl⟩
  · simp [get_id, set_id, updFn]
  · by_cases hh : h' = h <;> simp [set_id, updFn, hh]

/-- The claim C7 theorem: a handle constructed without an initial identity
has no bound identity, and `get_id` on it returns the empty value `none`
(it is a plain attribute read; no exception is modelled or needed). -/
theorem get_id_unbound_returns_none (w : World) :
    get_id (newHandle w).2 (newHandle w).1 = none := by
  simp [get_id, newHandle, updFn]

/-- The claim C10 theorem: the registry `_test_harness_jobs` is mutated
only by detached-mode `new`.  `set_id`, `describe`, `terminate` and
remote-mode `new` leave it unchanged (`get_id` and `wait_on_done` do not
touch the world at all in this embedding, mirroring their assignment-free
Python bodies).  Consequently, after the rebinding scenario the registry
still maps the old synthetic identity `job-1` to handle `0`, whose current
identity `job-xyz` differs from its registry key. -/
theorem registry_only_mutated_by_detached_new :
    (∀ (w : World) (h : Nat) (dxid : String),
      (set_id w h dxid).test_harness_jobs = w.test_harness_jobs) ∧
    (∀ (w : World) (h : Nat) (io : Bool),
      (DXJob.describe w h io).1.test_harness_jobs = w.test_harness_jobs) ∧
    (∀ (w : World) (h : Nat),
      (DXJob.terminate w h).1.test_harness_jobs = w.test_harness_jobs) ∧
    (∀ (api_jobNew : JobNewInput → PyVal → Except PyErr CreateResp)
        (dxpy_run : String → PyVal → Except PyErr PyVal)
        (fn_input : PyVal) (fn_name : String) (opts : PyVal) (h : Nat) (w : World),
      (((DXJob.new true api_jobNew dxpy_run fn_input fn_name opts h w).1).2).test_harness_jobs =
        w.test_harness_jobs) ∧
    (rebindW3.test_harness_jobs = [("job-1", 0)] ∧
      get_id rebindW3 0 = some "job-xyz" ∧
      get_id rebindW3 0 ≠ some "job-1") := by
  refine ⟨fun w h dxid => rfl, fun w h io => rfl, fun w h => rfl, ?_, ?_⟩
  · intro api_jobNew dxpy_run fn_input fn_name opts h w
    cases hapi : api_jobNew ⟨fn_input, fn_name⟩ opts <;> simp [DXJob.new, hapi, set_id]
  · refine ⟨?_, ?_, ?_⟩ <;> decide
